import Mathlib

/-!
Shallow embedding of the locus-app cell aggregation engine and its tRPC
routers (src/server/services/emotion-service.ts, src/server/api/routers/
emotions.ts, src/env.js).  JavaScript `number` arithmetic is modelled by
real numbers, except that divisions are tracked through `JsVal`, which
carries the IEEE special values NaN and plus or minus Infinity that
JavaScript produces on division by zero.  Timestamps are milliseconds
since the epoch, as in `Date.getTime()`.
-/

namespace Locus

/-- The `EmotionType` Prisma enum. -/
inductive EmotionType where
  | JOY | SERENITY | SURPRISE | NOSTALGIA | FEAR
  | SADNESS | ANGER | HOPE | GRATITUDE | ANXIETY
deriving DecidableEq, Repr

/-- The `VisibilityType` Prisma enum. -/
inductive VisibilityType where
  | PUBLIC | PRIVATE
deriving DecidableEq, Repr

/-- One `EmotionEntry` row, joined with the submitting user's `reputation`
scalar (the `include: { user: { select: { reputation } } }` of
`updateAggregateForCell`).  Stored numeric columns are rationals; the
engine computes on their real casts. -/
structure EmotionEntry where
  id : Nat
  userId : Nat
  h3Index : String
  emotion : EmotionType
  intensity : Int
  valence : Rat
  note : Option String
  tags : List String
  dwellSeconds : Nat
  gpsAccuracy : Int
  visibility : VisibilityType
  ttlHours : Option Int
  createdAt : Int
  expiresAt : Option Int
  reputation : Rat
deriving DecidableEq, Repr

/-- `EMOTION_VALENCE` lookup table from emotion-service.ts. -/
def EMOTION_VALENCE : EmotionType → Rat
  | .JOY => 8/10
  | .SERENITY => 6/10
  | .SURPRISE => 2/10
  | .NOSTALGIA => 1/10
  | .FEAR => -7/10
  | .SADNESS => -6/10
  | .ANGER => -8/10
  | .HOPE => 7/10
  | .GRATITUDE => 9/10
  | .ANXIETY => -5/10

/-- env.js default `HALF_LIFE_DAYS` (z default 30). -/
def HALF_LIFE_DAYS : ℝ := 30

/-- env.js default `TRUST_MIN` (z default 0.5). -/
noncomputable def TRUST_MIN : ℝ := 1/2

/-- env.js default `TRUST_MAX` (z default 1.5). -/
noncomputable def TRUST_MAX : ℝ := 3/2

/-- A JavaScript `number` as produced by the engine's divisions: a finite
real, `NaN`, `Infinity` or `-Infinity` (negative zero is not
distinguished from zero). -/
inductive JsVal where
  | num (x : ℝ)
  | nan
  | inf
  | ninf

/-- JavaScript unary minus on the modelled values. -/
def JsVal.neg : JsVal → JsVal
  | num x => num (-x)
  | nan => nan
  | inf => ninf
  | ninf => inf

/-- JavaScript `+` on the modelled values. -/
noncomputable def JsVal.add : JsVal → JsVal → JsVal
  | nan, _ => nan
  | _, nan => nan
  | inf, ninf => nan
  | ninf, inf => nan
  | inf, _ => inf
  | _, inf => inf
  | ninf, _ => ninf
  | _, ninf => ninf
  | num a, num b => num (a + b)

/-- JavaScript `-` on the modelled values. -/
noncomputable def JsVal.sub (a b : JsVal) : JsVal := a.add b.neg

/-- JavaScript `*` on the modelled values. -/
noncomputable def JsVal.mul : JsVal → JsVal → JsVal
  | nan, _ => nan
  | _, nan => nan
  | inf, inf => inf
  | inf, ninf => ninf
  | ninf, inf => ninf
  | ninf, ninf => inf
  | inf, num x => if x = 0 then nan else if 0 < x then inf else ninf
  | num x, inf => if x = 0 then nan else if 0 < x then inf else ninf
  | ninf, num x => if x = 0 then nan else if 0 < x then ninf else inf
  | num x, ninf => if x = 0 then nan else if 0 < x then ninf else inf
  | num a, num b => num (a * b)

/-- JavaScript `/` on the modelled values: division by zero yields
`NaN` when the numerator is zero and a signed infinity otherwise. -/
noncomputable def JsVal.div : JsVal → JsVal → JsVal
  | nan, _ => nan
  | _, nan => nan
  | inf, inf => nan
  | inf, ninf => nan
  | ninf, inf => nan
  | ninf, ninf => nan
  | inf, num x => if x < 0 then ninf else inf
  | ninf, num x => if x < 0 then inf else ninf
  | num _, inf => num 0
  | num _, ninf => num 0
  | num a, num b =>
      if b = 0 then (if a = 0 then nan else if 0 < a then inf else ninf)
      else num (a / b)

/-- Division of two finite JavaScript numbers. -/
noncomputable def jsDiv (a b : ℝ) : JsVal := JsVal.div (.num a) (.num b)

/-- JavaScript `Math.log2` on the modelled values. -/
noncomputable def JsVal.log2 : JsVal → JsVal
  | nan => nan
  | inf => inf
  | ninf => nan
  | num x => if x < 0 then nan else if x = 0 then ninf else num (Real.logb 2 x)

/-- The JavaScript comparison `v > 0` (false on `NaN`). -/
noncomputable def JsVal.gt0 : JsVal → Bool
  | num x => decide (0 < x)
  | inf => true
  | ninf => false
  | nan => false

/-- `ageDays` of an entry: `(now - createdAt) / (1000 * 60 * 60 * 24)`. -/
noncomputable def ageDays (now : Int) (e : EmotionEntry) : ℝ :=
  ((now - e.createdAt : Int) : ℝ) / (1000 * 60 * 60 * 24)

/-- `recencyWeight = Math.exp(-lambda * ageDays)` with
`lambda = Math.log(2) / halfLifeDays`. -/
noncomputable def recencyWeight (halfLifeDays : ℝ) (now : Int) (e : EmotionEntry) : ℝ :=
  Real.exp (-(Real.log 2 / halfLifeDays) * ageDays now e)

/-- `trustWeight = emotion.user.reputation` (used unclamped by the source). -/
noncomputable def trustWeight (e : EmotionEntry) : ℝ := (e.reputation : ℝ)

/-- `presenceWeight = Math.min(emotion.dwellSeconds / 300, 2)`. -/
noncomputable def presenceWeight (e : EmotionEntry) : ℝ :=
  min ((e.dwellSeconds : ℝ) / 300) 2

/-- `totalEntryWeight = recencyWeight * trustWeight * presenceWeight`. -/
noncomputable def totalEntryWeight (halfLifeDays : ℝ) (now : Int) (e : EmotionEntry) : ℝ :=
  recencyWeight halfLifeDays now e * trustWeight e * presenceWeight e

/-- The `expiresAt is null or expiresAt > now` liveness test of the
`findMany` where-clauses. -/
def liveAtB (now : Int) (e : EmotionEntry) : Bool :=
  match e.expiresAt with
  | none => true
  | some t => decide (now < t)

/-- The entry set fetched by `updateAggregateForCell`: all entries of the
cell that are live at `now`. -/
def liveForCell (entries : List EmotionEntry) (h3Index : String) (now : Int) :
    List EmotionEntry :=
  entries.filter (fun e => decide (e.h3Index = h3Index) && liveAtB now e)

/-- `totalWeight`: the running sum of `totalEntryWeight` over the loop. -/
noncomputable def totalWeightOf (hl : ℝ) (now : Int) (es : List EmotionEntry) : ℝ :=
  (es.map (totalEntryWeight hl now)).sum

/-- `weightedValence`: the running sum of `valence * totalEntryWeight`. -/
noncomputable def weightedValenceOf (hl : ℝ) (now : Int) (es : List EmotionEntry) : ℝ :=
  (es.map (fun e => (e.valence : ℝ) * totalEntryWeight hl now e)).sum

/-- `weightedIntensity`: the running sum of `intensity * totalEntryWeight`. -/
noncomputable def weightedIntensityOf (hl : ℝ) (now : Int) (es : List EmotionEntry) : ℝ :=
  (es.map (fun e => (e.intensity : ℝ) * totalEntryWeight hl now e)).sum

/-- The key set of the `emotionCounts` record: emotion kinds in order of
first appearance (JavaScript object insertion order). -/
def kindsPresent (es : List EmotionEntry) : List EmotionType :=
  es.foldl (fun acc e => if e.emotion ∈ acc then acc else acc ++ [e.emotion]) []

/-- The value `emotionCounts[k]`: accumulated `totalEntryWeight` of the
entries of kind `k`. -/
noncomputable def kindWeight (hl : ℝ) (now : Int) (es : List EmotionEntry)
    (k : EmotionType) : ℝ :=
  ((es.filter (fun e => decide (e.emotion = k))).map (totalEntryWeight hl now)).sum

/-- `totalEmotionWeight = Object.values(emotionCounts).reduce((a, b) => a + b, 0)`. -/
noncomputable def totalEmotionWeightOf (hl : ℝ) (now : Int) (es : List EmotionEntry) : ℝ :=
  ((kindsPresent es).map (kindWeight hl now es)).sum

/-- The dominant-emotion reduce
`Object.entries(emotionCounts).reduce((a, b) => counts[a] > counts[b] ? a : b)`
over a nonempty key list: the accumulator starts at the first key and is
replaced whenever its count is not strictly greater than the next key's. -/
noncomputable def reduceDominantAux (counts : EmotionType → ℝ)
    (k : EmotionType) (ks : List EmotionType) : EmotionType :=
  ks.foldl (fun a b => if counts b < counts a then a else b) k

/-- The dominant-emotion reduce; `none` on an empty key list, where the
JavaScript `reduce` without an initial value would throw. -/
noncomputable def reduceDominant (counts : EmotionType → ℝ) :
    List EmotionType → Option EmotionType
  | [] => none
  | k :: ks => some (reduceDominantAux counts k ks)

/-- `distribution[k] = (emotionCounts[k] / totalEmotionWeight) * 100`,
in key order. -/
noncomputable def distributionOf (hl : ℝ) (now : Int) (es : List EmotionEntry) :
    List (EmotionType × JsVal) :=
  (kindsPresent es).map (fun k =>
    (k, JsVal.mul (jsDiv (kindWeight hl now es k) (totalEmotionWeightOf hl now es))
          (JsVal.num 100)))

/-- The entropy reduce over the distribution values:
`acc - (p > 0 ? p * Math.log2(p) : 0)` with `p = pct / 100`. -/
noncomputable def entropyFold (pcts : List JsVal) : JsVal :=
  pcts.foldl (fun acc pct =>
    JsVal.sub acc
      (if (JsVal.div pct (JsVal.num 100)).gt0 then
        JsVal.mul (JsVal.div pct (JsVal.num 100))
          (JsVal.log2 (JsVal.div pct (JsVal.num 100)))
      else JsVal.num 0)) (JsVal.num 0)

/-- `entropy` of the computed distribution. -/
noncomputable def entropyOf (hl : ℝ) (now : Int) (es : List EmotionEntry) : JsVal :=
  entropyFold ((distributionOf hl now es).map Prod.snd)

/-- `maxEntropy = Math.log2(Object.keys(distribution).length)`. -/
noncomputable def maxEntropyOf (es : List EmotionEntry) : JsVal :=
  JsVal.log2 (JsVal.num ((kindsPresent es).length : ℝ))

/-- `coherence = 1 - entropy / maxEntropy` (no single-kind special case
in the source). -/
noncomputable def coherenceOf (hl : ℝ) (now : Int) (es : List EmotionEntry) : JsVal :=
  JsVal.sub (JsVal.num 1) (JsVal.div (entropyOf hl now es) (maxEntropyOf es))

/-- The `recentEmotions` filter: `ageDays <= 7`. -/
noncomputable def recentOf (now : Int) (es : List EmotionEntry) : List EmotionEntry :=
  es.filter (fun e => decide (ageDays now e ≤ 7))

/-- The `olderEmotions` filter: `7 < ageDays <= 30`. -/
noncomputable def olderOf (now : Int) (es : List EmotionEntry) : List EmotionEntry :=
  es.filter (fun e => decide (7 < ageDays now e) && decide (ageDays now e ≤ 30))

/-- `trend`: clamped doubled difference of raw valence averages of the
recent and older buckets; `0` if either bucket is empty. -/
noncomputable def trendOf (now : Int) (es : List EmotionEntry) : ℝ :=
  let recent := recentOf now es
  let older := olderOf now es
  if recent.length ≠ 0 ∧ older.length ≠ 0 then
    max (-1) (min 1
      (((recent.map (fun e => (e.valence : ℝ))).sum / recent.length -
        (older.map (fun e => (e.valence : ℝ))).sum / older.length) * 2))
  else 0

/-- The `lastEntry` reduce: entry with the largest `createdAt`, earliest
kept on ties. -/
def lastCreatedAt (e : EmotionEntry) (es : List EmotionEntry) : Int :=
  (es.foldl (fun latest cur =>
    if latest.createdAt < cur.createdAt then cur else latest) e).createdAt

/-- The `EmotionAggregate` row written by `updateAggregateForCell`. -/
structure EmotionAggregate where
  h3Index : String
  dominantEmotion : Option EmotionType
  meanValence : JsVal
  meanIntensity : JsVal
  distribution : List (EmotionType × JsVal)
  coherence : JsVal
  trend : ℝ
  entryCount : Nat
  lastEntryAt : Int

/-- The aggregate computed for a nonempty live entry list `e :: es`. -/
noncomputable def computeAggregate (hl : ℝ) (now : Int) (h3Index : String)
    (e : EmotionEntry) (es : List EmotionEntry) : EmotionAggregate :=
  { h3Index := h3Index
    dominantEmotion :=
      reduceDominant (kindWeight hl now (e :: es)) (kindsPresent (e :: es))
    meanValence := jsDiv (weightedValenceOf hl now (e :: es)) (totalWeightOf hl now (e :: es))
    meanIntensity := jsDiv (weightedIntensityOf hl now (e :: es)) (totalWeightOf hl now (e :: es))
    distribution := distributionOf hl now (e :: es)
    coherence := coherenceOf hl now (e :: es)
    trend := trendOf now (e :: es)
    entryCount := (e :: es).length
    lastEntryAt := lastCreatedAt e es }

/-- `updateAggregateForCell` as a pure function: `none` when the cell has
no live entries (the source then deletes the stored aggregate), otherwise
the aggregate that the source upserts. -/
noncomputable def recomputeResult (hl : ℝ) (entries : List EmotionEntry)
    (h3Index : String) (now : Int) : Option EmotionAggregate :=
  match liveForCell entries h3Index now with
  | [] => none
  | e :: es => some (computeAggregate hl now h3Index e es)

/-- The `deleteMany` predicate of `cleanupExpiredEmotions`:
`expiresAt: { lt: new Date() }` — a strict comparison that matches only
rows with a non-null `expiresAt` strictly before `now`. -/
def expiredLtB (now : Int) (e : EmotionEntry) : Bool :=
  match e.expiresAt with
  | none => false
  | some t => decide (t < now)

/-- Result of `cleanupExpiredEmotions`: the surviving entry table, the
returned `result.count`, and the cells for which the source schedules an
aggregate recompute — the source schedules none. -/
structure CleanupResult where
  remaining : List EmotionEntry
  count : Nat
  scheduled : List String
deriving DecidableEq, Repr

/-- `cleanupExpiredEmotions` as a pure function of the entry table. -/
def cleanupExpiredEmotions (entries : List EmotionEntry) (now : Int) : CleanupResult :=
  { remaining := entries.filter (fun e => !expiredLtB now e)
    count := (entries.filter (expiredLtB now)).length
    scheduled := [] }

/-- The input object of the `emotions.add` mutation. -/
structure AddInput where
  h3Index : String
  emotion : EmotionType
  intensity : Int
  note : Option String
  tags : List String
  dwellSeconds : Nat
  gpsAccuracy : Int
  visibility : VisibilityType
  ttlHours : Option Int
deriving DecidableEq, Repr

/-- The TRPCErrors thrown by `emotions.add`: `BAD_REQUEST` on an invalid
H3 index, `TOO_MANY_REQUESTS` on the per-cell daily limit. -/
inductive AddError where
  | invalidH3
  | rateLimited
deriving DecidableEq, Repr

/-- Observable outcome of `emotions.add`: the returned value or thrown
error, the entry table afterwards, and the cells passed to
`scheduleAggregateUpdate`. -/
structure AddOutcome where
  result : Except AddError EmotionEntry
  entries : List EmotionEntry
  scheduled : List String

/-- The `todayCount` where-clause: same user, same cell,
`createdAt` within the current local calendar day. -/
def sameCellToday (userId : Nat) (h3Index : String) (dayStart dayEnd : Int)
    (e : EmotionEntry) : Bool :=
  decide (e.userId = userId) && decide (e.h3Index = h3Index) &&
    decide (dayStart ≤ e.createdAt) && decide (e.createdAt < dayEnd)

/-- The `emotions.add` mutation as a pure function.  `isValidH3` stands
for the h3-js `isValidCell` capability; `dayStart`/`dayEnd` are the local
midnight bounds the handler computes with `setHours(0,0,0,0)` and
`setDate(+1)`; `rep` is the submitting user's reputation; `newId` the id
the store assigns. -/
def addEmotion (isValidH3 : String → Bool) (entries : List EmotionEntry)
    (userId : Nat) (rep : Rat) (inp : AddInput) (dayStart dayEnd now : Int)
    (newId : Nat) : AddOutcome :=
  if !isValidH3 inp.h3Index then
    { result := .error .invalidH3, entries := entries, scheduled := [] }
  else if 3 ≤ (entries.filter (sameCellToday userId inp.h3Index dayStart dayEnd)).length then
    { result := .error .rateLimited, entries := entries, scheduled := [] }
  else
    let entry : EmotionEntry :=
      { id := newId
        userId := userId
        h3Index := inp.h3Index
        emotion := inp.emotion
        intensity := inp.intensity
        valence := EMOTION_VALENCE inp.emotion
        note := inp.note
        tags := inp.tags
        dwellSeconds := inp.dwellSeconds
        gpsAccuracy := inp.gpsAccuracy
        visibility := inp.visibility
        ttlHours := inp.ttlHours
        createdAt := now
        expiresAt := inp.ttlHours.map (fun h => now + h * (60 * 60 * 1000))
        reputation := rep }
    { result := .ok entry, entries := entries ++ [entry], scheduled := [inp.h3Index] }

/-- Insertion into a `createdAt`-descending list (`orderBy createdAt desc`). -/
def insertDesc (e : EmotionEntry) : List EmotionEntry → List EmotionEntry
  | [] => [e]
  | x :: xs => if x.createdAt < e.createdAt then e :: x :: xs else x :: insertDesc e xs

/-- Sort by `createdAt` descending. -/
def sortByCreatedDesc (es : List EmotionEntry) : List EmotionEntry :=
  es.foldr insertDesc []

/-- The where-clause of `emotions.getByCell`.  When the caller is
unauthenticated or `includePrivate` is false, only live PUBLIC rows of
the cell match; otherwise the handler overwrites the liveness `OR` with
`visibility = PUBLIC or (visibility = PRIVATE and userId = session user)`. -/
def getByCellPred (h3Index : String) (now : Int) (session : Option Nat)
    (includePrivate : Bool) (e : EmotionEntry) : Bool :=
  if !includePrivate || session.isNone then
    decide (e.h3Index = h3Index) && liveAtB now e && decide (e.visibility = .PUBLIC)
  else
    decide (e.h3Index = h3Index) &&
      (decide (e.visibility = .PUBLIC) ||
        (decide (e.visibility = .PRIVATE) && decide (some e.userId = session)))

/-- The `emotions` list returned by `emotions.getByCell`: matching rows,
newest first, truncated to `limit`. -/
def getByCellEmotions (entries : List EmotionEntry) (h3Index : String) (now : Int)
    (session : Option Nat) (includePrivate : Bool) (limit : Nat) :
    List EmotionEntry :=
  (sortByCreatedDesc (entries.filter (getByCellPred h3Index now session includePrivate))).take
    limit

/-- Concrete entry fixture: irrelevant columns fixed, the columns the
engine reads supplied. -/
def mkEntry (id userId : Nat) (h3Index : String) (k : EmotionType)
    (dwellSeconds : Nat) (createdAt : Int) (expiresAt : Option Int)
    (reputation : Rat) : EmotionEntry :=
  { id := id
    userId := userId
    h3Index := h3Index
    emotion := k
    intensity := 50
    valence := EMOTION_VALENCE k
    note := none
    tags := []
    dwellSeconds := dwellSeconds
    gpsAccuracy := 10
    visibility := .PUBLIC
    ttlHours := none
    createdAt := createdAt
    expiresAt := expiresAt
    reputation := reputation }

theorem liveAtB_iff (now : Int) (e : EmotionEntry) :
    liveAtB now e = true ↔
      (e.expiresAt = none ∨ ∃ t, e.expiresAt = some t ∧ now < t) := by
  cases h : e.expiresAt <;> simp [liveAtB, h]

theorem mem_liveForCell (entries : List EmotionEntry) (h3Index : String) (now : Int)
    (e : EmotionEntry) :
    e ∈ liveForCell entries h3Index now ↔
      e ∈ entries ∧ e.h3Index = h3Index ∧
        (e.expiresAt = none ∨ ∃ t, e.expiresAt = some t ∧ now < t) := by
  simp [liveForCell, List.mem_filter, liveAtB_iff, and_assoc]

theorem liveForCell_after_cleanup (entries : List EmotionEntry) (h3Index : String)
    (now : Int) :
    liveForCell (cleanupExpiredEmotions entries now).remaining h3Index now =
      liveForCell entries h3Index now := by
  rw [cleanupExpiredEmotions, liveForCell, liveForCell, List.filter_filter]
  apply List.filter_congr
  intro e _
  cases h : e.expiresAt with
  | none => simp [liveAtB, expiredLtB, h]
  | some t =>
    by_cases hlt : now < t
    · simp [liveAtB, expiredLtB, h, hlt, Bool.and_comm]
      omega
    · simp [liveAtB, expiredLtB, h, hlt]

theorem JsVal.div_num_of_ne (a b : ℝ) (hb : b ≠ 0) :
    JsVal.div (.num a) (.num b) = .num (a / b) := by
  simp [JsVal.div, hb]

theorem JsVal.div_zero_zero : JsVal.div (.num 0) (.num 0) = .nan := by
  simp [JsVal.div]

theorem JsVal.mul_num_num (a b : ℝ) :
    JsVal.mul (.num a) (.num b) = .num (a * b) := rfl

theorem JsVal.sub_num_num (a b : ℝ) :
    JsVal.sub (.num a) (.num b) = .num (a - b) := by
  simp [JsVal.sub, JsVal.add, JsVal.neg, sub_eq_add_neg]

theorem JsVal.sub_num_nan (a : ℝ) : JsVal.sub (.num a) .nan = .nan := rfl

theorem JsVal.log2_num_pos (x : ℝ) (hx : 0 < x) :
    JsVal.log2 (.num x) = .num (Real.logb 2 x) := by
  simp [JsVal.log2, not_lt.mpr hx.le, hx.ne']

theorem JsVal.gt0_num (x : ℝ) : JsVal.gt0 (.num x) = decide (0 < x) := rfl

theorem mem_insertDesc (e x : EmotionEntry) (l : List EmotionEntry) :
    x ∈ insertDesc e l ↔ x = e ∨ x ∈ l := by
  induction l with
  | nil => simp [insertDesc]
  | cons a t ih =>
    by_cases h : a.createdAt < e.createdAt
    · simp [insertDesc, h]
    · simp [insertDesc, h, ih]
      tauto

theorem mem_sortByCreatedDesc (x : EmotionEntry) (es : List EmotionEntry) :
    x ∈ sortByCreatedDesc es ↔ x ∈ es := by
  induction es with
  | nil => simp [sortByCreatedDesc]
  | cons a t ih =>
    simp only [sortByCreatedDesc, List.foldr_cons] at *
    rw [mem_insertDesc, ih, List.mem_cons]

/-- Claim C7: the entry set consumed by `updateAggregateForCell` is
exactly the live entries of the cell (`expiresAt` null or strictly after
`now`), so an expired entry is excluded from the computed aggregate even
when `cleanupExpiredEmotions` has not run: sweeping first does not change
the recompute result. -/
theorem recompute_liveness (hl : ℝ) (entries : List EmotionEntry)
    (h3Index : String) (now : Int) :
    (∀ e : EmotionEntry, e ∈ liveForCell entries h3Index now ↔
      e ∈ entries ∧ e.h3Index = h3Index ∧
        (e.expiresAt = none ∨ ∃ t, e.expiresAt = some t ∧ now < t)) ∧
    recomputeResult hl entries h3Index now =
      recomputeResult hl (cleanupExpiredEmotions entries now).remaining h3Index now := by
  refine ⟨mem_liveForCell entries h3Index now, ?_⟩
  rw [recomputeResult, recomputeResult, liveForCell_after_cleanup]

/-- Claim C10: every entry returned by `emotions.getByCell` is PUBLIC or
is a PRIVATE entry owned by the authenticated session user with
`includePrivate` set; a PRIVATE entry of another user is never returned. -/
theorem getByCell_private_safety (entries : List EmotionEntry) (h3Index : String)
    (now : Int) (session : Option Nat) (includePrivate : Bool) (limit : Nat) :
    (getByCellEmotions entries h3Index now session includePrivate limit).all
      (fun e => decide (e.visibility = .PUBLIC) ||
        (includePrivate && decide (some e.userId = session))) = true := by
  rw [List.all_eq_true]
  intro e he
  have he2 := List.mem_of_mem_take he
  rw [mem_sortByCreatedDesc, List.mem_filter] at he2
  obtain ⟨-, hp⟩ := he2
  rw [getByCellPred] at hp
  by_cases hip : includePrivate
  · cases hsess : session with
    | none => simp_all
    | some uid =>
      simp only [hip, hsess] at hp
      simp only [hip, hsess]
      simp at hp ⊢
      tauto
  · simp_all

theorem recencyWeight_now (hl : ℝ) (now : Int) (e : EmotionEntry)
    (h : e.createdAt = now) : recencyWeight hl now e = 1 := by
  simp [recencyWeight, ageDays, h]

theorem presenceWeight_300 (e : EmotionEntry) (h : e.dwellSeconds = 300) :
    presenceWeight e = 1 := by
  rw [presenceWeight, h]
  norm_num

theorem presenceWeight_zero (e : EmotionEntry) (h : e.dwellSeconds = 0) :
    presenceWeight e = 0 := by
  rw [presenceWeight, h]
  norm_num

theorem totalEntryWeight_one (hl : ℝ) (now : Int) (e : EmotionEntry)
    (hc : e.createdAt = now) (hr : e.reputation = 1) (hd : e.dwellSeconds = 300) :
    totalEntryWeight hl now e = 1 := by
  rw [totalEntryWeight, recencyWeight_now hl now e hc, presenceWeight_300 e hd,
    trustWeight, hr]
  norm_num

theorem totalEntryWeight_zero_dwell (hl : ℝ) (now : Int) (e : EmotionEntry)
    (hd : e.dwellSeconds = 0) : totalEntryWeight hl now e = 0 := by
  rw [totalEntryWeight, presenceWeight_zero e hd, mul_zero]

/-- Entry in cell c4 expiring exactly at the sweep instant. -/
def e4a : EmotionEntry := mkEntry 1 1 "c4" .JOY 300 (-100) (some 0) 1

/-- Entry in cell c4 expired before the sweep instant. -/
def e4b : EmotionEntry := mkEntry 2 1 "c4" .JOY 300 (-100) (some (-5)) 1

/-- Claim C4, failing input: at `now = 0`, `cleanupExpiredEmotions` keeps
the entry with `expiresAt = 0` (the Prisma filter is the strict
`expiresAt < now`, not `expiresAt <= now`), reports one deletion, and
schedules no recompute for cell c4 although an entry of that cell was
deleted. -/
theorem sweep_strict_and_unscheduled :
    cleanupExpiredEmotions [e4a, e4b] 0 =
      { remaining := [e4a], count := 1, scheduled := [] } := by
  rfl

/-- Entry submitted by a user whose reputation scalar is 3, outside the
configured `[TRUST_MIN, TRUST_MAX]` band. -/
def e5 : EmotionEntry := mkEntry 1 9 "c5" .JOY 300 0 none 3

/-- Claim C5, failing input: `updateAggregateForCell` uses the raw
reputation as the trust weight, so a reputation of 3 contributes an
entry weight of 3, above `TRUST_MAX = 1.5`; the clamp the spec requires
does not exist in the source. -/
theorem trust_weight_unclamped :
    trustWeight e5 = 3 ∧ totalEntryWeight 30 0 e5 = 3 ∧ TRUST_MAX < trustWeight e5 := by
  have h1 : trustWeight e5 = 3 := by
    rw [trustWeight]
    norm_num [e5, mkEntry]
  refine ⟨h1, ?_, ?_⟩
  · rw [totalEntryWeight, recencyWeight_now 30 0 e5 rfl, h1,
      presenceWeight_300 e5 rfl]
    ring
  · rw [h1, TRUST_MAX]
    norm_num

theorem kindsPresent_single (e : EmotionEntry) : kindsPresent [e] = [e.emotion] := by
  simp [kindsPresent]

/-- Single live JOY entry of full weight in cell c1. -/
def e1 : EmotionEntry := mkEntry 1 1 "c1" .JOY 300 0 none 1

theorem e1_filter_JOY :
    [e1].filter (fun e => decide (e.emotion = EmotionType.JOY)) = [e1] := rfl

theorem e1_kindWeight : kindWeight 30 0 [e1] .JOY = 1 := by
  rw [kindWeight, e1_filter_JOY]
  simp [totalEntryWeight_one 30 0 e1 rfl rfl rfl]

theorem e1_totalEmotionWeight : totalEmotionWeightOf 30 0 [e1] = 1 := by
  rw [totalEmotionWeightOf, show kindsPresent [e1] = [EmotionType.JOY] from rfl]
  simp [e1_kindWeight]

theorem e1_distribution : distributionOf 30 0 [e1] = [(.JOY, .num 100)] := by
  rw [distributionOf, show kindsPresent [e1] = [EmotionType.JOY] from rfl]
  simp only [List.map_cons, List.map_nil]
  rw [e1_kindWeight, e1_totalEmotionWeight,
    jsDiv, JsVal.div_num_of_ne 1 1 one_ne_zero, JsVal.mul_num_num]
  norm_num

theorem e1_entropy : entropyOf 30 0 [e1] = .num 0 := by
  rw [entropyOf, e1_distribution]
  simp only [List.map_cons, List.map_nil]
  rw [entropyFold]
  simp only [List.foldl_cons, List.foldl_nil]
  rw [JsVal.div_num_of_ne 100 100 (by norm_num)]
  norm_num
  rw [JsVal.gt0_num]
  simp only [decide_eq_true_eq, zero_lt_one, if_pos]
  rw [JsVal.log2_num_pos 1 one_pos, Real.logb_one, JsVal.mul_num_num,
    JsVal.sub_num_num]
  norm_num

theorem e1_maxEntropy : maxEntropyOf [e1] = .num 0 := by
  rw [maxEntropyOf, show kindsPresent [e1] = [EmotionType.JOY] from rfl]
  simp only [List.length_singleton, Nat.cast_one]
  rw [JsVal.log2_num_pos 1 one_pos, Real.logb_one]

/-- Claim C1, failing input: for a cell whose only live entry set is a
single kind, the coherence written by `updateAggregateForCell` is `NaN`
(`1 - 0/0`): the source has no single-kind branch. -/
theorem coherence_single_kind_nan :
    (recomputeResult 30 [e1] "c1" 0).map EmotionAggregate.coherence =
      some JsVal.nan := by
  have hlive : liveForCell [e1] "c1" 0 = [e1] := rfl
  simp only [recomputeResult, hlive]
  simp only [Option.map_some', Option.some.injEq]
  rw [computeAggregate]
  show coherenceOf 30 0 [e1] = JsVal.nan
  rw [coherenceOf, e1_entropy, e1_maxEntropy, JsVal.div_zero_zero, JsVal.sub_num_nan]

/-- Single live entry of cell c2 with `dwellSeconds = 0`, so its presence
weight and therefore the cell's `totalWeight` are zero. -/
def e2 : EmotionEntry := mkEntry 1 1 "c2" .JOY 0 0 none 1

/-- Claim C2, failing input: with one live zero-weight entry the source
does not treat the cell as empty: it upserts an aggregate (the result is
not `None`) whose `meanValence` is `0 / 0 = NaN`, even though
`totalWeight` is zero. -/
theorem zero_weight_writes_nan :
    recomputeResult 30 [e2] "c2" 0 ≠ none ∧
    (recomputeResult 30 [e2] "c2" 0).map EmotionAggregate.meanValence =
      some JsVal.nan ∧
    totalWeightOf 30 0 (liveForCell [e2] "c2" 0) = 0 := by
  have hlive : liveForCell [e2] "c2" 0 = [e2] := rfl
  have hw : totalEntryWeight 30 0 e2 = 0 := totalEntryWeight_zero_dwell 30 0 e2 rfl
  have htot : totalWeightOf 30 0 [e2] = 0 := by
    simp [totalWeightOf, hw]
  have hval : weightedValenceOf 30 0 [e2] = 0 := by
    simp [weightedValenceOf, hw]
  refine ⟨?_, ?_, ?_⟩
  · simp only [recomputeResult, hlive]
    exact Option.some_ne_none _
  · simp only [recomputeResult, hlive, Option.map_some', Option.some.injEq]
    rw [computeAggregate]
    show jsDiv (weightedValenceOf 30 0 [e2]) (totalWeightOf 30 0 [e2]) = JsVal.nan
    rw [htot, hval, jsDiv, JsVal.div_zero_zero]
  · rw [hlive, htot]

theorem JsVal.mul_nan_left (v : JsVal) : JsVal.mul .nan v = .nan := by
  cases v <;> rfl

/-- Single live entry of cell c8 with zero entry weight. -/
def e8 : EmotionEntry := mkEntry 1 1 "c8" .JOY 0 0 none 1

/-- Claim C8, counterexample: with one live zero-weight entry an
aggregate is stored whose distribution value is `NaN`, so the stored
distribution does not sum to 100 although the aggregate is present. -/
theorem distribution_nan_counterexample :
    recomputeResult 30 [e8] "c8" 0 ≠ none ∧
    (recomputeResult 30 [e8] "c8" 0).map EmotionAggregate.distribution =
      some [(.JOY, JsVal.nan)] := by
  have hlive : liveForCell [e8] "c8" 0 = [e8] := rfl
  have hw : totalEntryWeight 30 0 e8 = 0 := totalEntryWeight_zero_dwell 30 0 e8 rfl
  have hkw : kindWeight 30 0 [e8] .JOY = 0 := by
    rw [kindWeight,
      show [e8].filter (fun e => decide (e.emotion = EmotionType.JOY)) = [e8] from rfl]
    simp [hw]
  have htew : totalEmotionWeightOf 30 0 [e8] = 0 := by
    rw [totalEmotionWeightOf, show kindsPresent [e8] = [EmotionType.JOY] from rfl]
    simp [hkw]
  constructor
  · simp only [recomputeResult, hlive]
    exact Option.some_ne_none _
  · simp only [recomputeResult, hlive, Option.map_some', Option.some.injEq]
    rw [computeAggregate]
    show distributionOf 30 0 [e8] = [(.JOY, JsVal.nan)]
    rw [distributionOf, show kindsPresent [e8] = [EmotionType.JOY] from rfl]
    simp only [List.map_cons, List.map_nil]
    rw [hkw, htew, jsDiv, JsVal.div_zero_zero, JsVal.mul_nan_left]

/-- Claim C8 (amended): after recompute either no aggregate is stored,
or — provided the accumulated kind weight total is nonzero — the stored
distribution assigns each kind `100 * kindWeight / totalEmotionWeight`
and its values sum to 100.  (With a zero total the source still stores
an aggregate, but its distribution values are NaN.) -/
theorem distribution_sums_amended (hl : ℝ) (entries : List EmotionEntry)
    (h3Index : String) (now : Int)
    (htw : totalEmotionWeightOf hl now (liveForCell entries h3Index now) ≠ 0) :
    recomputeResult hl entries h3Index now = none ∨
    ∃ agg, recomputeResult hl entries h3Index now = some agg ∧
      agg.distribution =
        (kindsPresent (liveForCell entries h3Index now)).map (fun k =>
          (k, JsVal.num (kindWeight hl now (liveForCell entries h3Index now) k /
            totalEmotionWeightOf hl now (liveForCell entries h3Index now) * 100))) ∧
      ((kindsPresent (liveForCell entries h3Index now)).map (fun k =>
        kindWeight hl now (liveForCell entries h3Index now) k /
          totalEmotionWeightOf hl now (liveForCell entries h3Index now) * 100)).sum =
        100 := by
  cases hlive : liveForCell entries h3Index now with
  | nil =>
    left
    simp [recomputeResult, hlive]
  | cons e es =>
    right
    rw [hlive] at htw
    refine ⟨computeAggregate hl now h3Index e es, by simp [recomputeResult, hlive], ?_, ?_⟩
    · show distributionOf hl now (e :: es) = _
      rw [distributionOf]
      have hdm : ∀ a : ℝ, jsDiv a (totalEmotionWeightOf hl now (e :: es)) =
          .num (a / totalEmotionWeightOf hl now (e :: es)) := fun a => by
        rw [jsDiv, JsVal.div_num_of_ne _ _ htw]
      simp only [hdm, JsVal.mul_num_num]
    · have hfac : ∀ k : EmotionType,
          kindWeight hl now (e :: es) k / totalEmotionWeightOf hl now (e :: es) * 100 =
            kindWeight hl now (e :: es) k * (100 / totalEmotionWeightOf hl now (e :: es)) :=
        fun k => by ring
      rw [List.map_congr_left (fun k _ => hfac k), List.sum_map_mul_right,
        ← totalEmotionWeightOf]
      rw [mul_comm, div_mul_cancel₀ _ htw]

/-- Single full-weight entry in cell cW, giving a kind weight total of 1. -/
def eW : EmotionEntry := mkEntry 1 1 "cW" .JOY 300 0 none 1

theorem eW_totalEmotionWeight :
    totalEmotionWeightOf 30 0 (liveForCell [eW] "cW" 0) = 1 := by
  rw [show liveForCell [eW] "cW" 0 = [eW] from rfl, totalEmotionWeightOf,
    show kindsPresent [eW] = [EmotionType.JOY] from rfl]
  have hkw : kindWeight 30 0 [eW] .JOY = 1 := by
    rw [kindWeight,
      show [eW].filter (fun e => decide (e.emotion = EmotionType.JOY)) = [eW] from rfl]
    simp [totalEntryWeight_one 30 0 eW rfl rfl rfl]
  simp [hkw]

/-- Witness for the amended C8 at a concrete one-entry cell of total
kind weight 1. -/
theorem distribution_sums_amended_witness :
    recomputeResult 30 [eW] "cW" 0 = none ∨
    ∃ agg, recomputeResult 30 [eW] "cW" 0 = some agg ∧
      agg.distribution =
        (kindsPresent (liveForCell [eW] "cW" 0)).map (fun k =>
          (k, JsVal.num (kindWeight 30 0 (liveForCell [eW] "cW" 0) k /
            totalEmotionWeightOf 30 0 (liveForCell [eW] "cW" 0) * 100))) ∧
      ((kindsPresent (liveForCell [eW] "cW" 0)).map (fun k =>
        kindWeight 30 0 (liveForCell [eW] "cW" 0) k /
          totalEmotionWeightOf 30 0 (liveForCell [eW] "cW" 0) * 100)).sum = 100 :=
  distribution_sums_amended 30 [eW] "cW" 0 (by simp [eW_totalEmotionWeight])

theorem head_le_of_decomp (counts : EmotionType → ℝ) (c d : EmotionType)
    (rest l1 l2 : List EmotionType) (hdec : c :: rest = l1 ++ d :: l2)
    (h1 : ∀ x ∈ l1, counts x ≤ counts d) : counts c ≤ counts d := by
  cases l1 with
  | nil =>
    rw [List.nil_append] at hdec
    injection hdec with hcd _
    rw [hcd]
  | cons a l1' =>
    rw [List.cons_append] at hdec
    injection hdec with hca _
    exact hca ▸ h1 a (List.mem_cons_self a l1')

theorem reduceDominantAux_decomp (counts : EmotionType → ℝ) (ks : List EmotionType) :
    ∀ k : EmotionType, ∃ l1 l2,
      k :: ks = l1 ++ reduceDominantAux counts k ks :: l2 ∧
      (∀ x ∈ l1, counts x ≤ counts (reduceDominantAux counts k ks)) ∧
      (∀ x ∈ l2, counts x < counts (reduceDominantAux counts k ks)) := by
  induction ks with
  | nil =>
    intro k
    exact ⟨[], [], rfl, by simp, by simp⟩
  | cons b t ih =>
    intro k
    have hstep : reduceDominantAux counts k (b :: t) =
        reduceDominantAux counts (if counts b < counts k then k else b) t := rfl
    by_cases hbk : counts b < counts k
    · rw [hstep, if_pos hbk]
      obtain ⟨l1, l2, hdec, h1, h2⟩ := ih k
      cases l1 with
      | nil =>
        rw [List.nil_append] at hdec
        injection hdec with hkd htl
        refine ⟨[], b :: l2, ?_, by simp, ?_⟩
        · rw [List.nil_append, ← hkd, htl]
        · intro x hx
          rcases List.mem_cons.mp hx with hxb | hxl
          · rw [hxb, ← hkd]
            exact hbk
          · exact h2 x hxl
      | cons a l1' =>
        rw [List.cons_append] at hdec
        injection hdec with hka ht
        refine ⟨k :: b :: l1', l2, ?_, ?_, h2⟩
        · conv_lhs => rw [ht]
          simp [List.cons_append]
        · intro x hx
          have hkle : counts k ≤ counts (reduceDominantAux counts k t) :=
            hka ▸ h1 a (List.mem_cons_self a l1')
          rcases List.mem_cons.mp hx with hxk | hx'
          · rw [hxk]
            exact hkle
          · rcases List.mem_cons.mp hx' with hxb | hxl
            · rw [hxb]
              exact le_trans hbk.le hkle
            · exact h1 x (List.mem_cons_of_mem a hxl)
    · rw [hstep, if_neg hbk]
      obtain ⟨l1, l2, hdec, h1, h2⟩ := ih b
      refine ⟨k :: l1, l2, ?_, ?_, h2⟩
      · rw [List.cons_append, ← hdec]
      · intro x hx
        rcases List.mem_cons.mp hx with hxk | hxl
        · rw [hxk]
          exact le_trans (not_lt.mp hbk)
            (head_le_of_decomp counts b (reduceDominantAux counts b t) t l1 l2 hdec h1)
        · exact h1 x hxl

theorem foldl_kinds_extends (l : List EmotionEntry) :
    ∀ acc : List EmotionType, ∃ rest,
      l.foldl (fun acc e => if e.emotion ∈ acc then acc else acc ++ [e.emotion]) acc =
        acc ++ rest := by
  induction l with
  | nil =>
    intro acc
    exact ⟨[], by simp⟩
  | cons e t ih =>
    intro acc
    rw [List.foldl_cons]
    by_cases he : e.emotion ∈ acc
    · obtain ⟨rest, hr⟩ := ih acc
      refine ⟨rest, ?_⟩
      rw [if_pos he]
      exact hr
    · obtain ⟨rest, hr⟩ := ih (acc ++ [e.emotion])
      refine ⟨e.emotion :: rest, ?_⟩
      rw [if_neg he, hr, List.append_assoc]
      rfl

theorem kindsPresent_head (e : EmotionEntry) (es : List EmotionEntry) :
    ∃ rest, kindsPresent (e :: es) = e.emotion :: rest := by
  obtain ⟨rest, hr⟩ := foldl_kinds_extends es [e.emotion]
  refine ⟨rest, ?_⟩
  rw [kindsPresent, List.foldl_cons]
  simpa using hr

/-- Claim C3 (amended): the dominant emotion of a nonempty live entry
set is a kind of maximal accumulated `kindWeight`, and ties are broken
in favour of the LAST-encountered kind in iteration order: every kind
listed after the chosen one weighs strictly less, every kind before it
at most as much. -/
theorem dominant_max_last_tiebreak (hl : ℝ) (entries : List EmotionEntry)
    (h3Index : String) (now : Int) (e : EmotionEntry) (es : List EmotionEntry)
    (hlive : liveForCell entries h3Index now = e :: es) :
    ∃ agg, recomputeResult hl entries h3Index now = some agg ∧
      ∃ d l1 l2, agg.dominantEmotion = some d ∧
        kindsPresent (e :: es) = l1 ++ d :: l2 ∧
        (∀ x ∈ kindsPresent (e :: es),
          kindWeight hl now (e :: es) x ≤ kindWeight hl now (e :: es) d) ∧
        (∀ x ∈ l2, kindWeight hl now (e :: es) x < kindWeight hl now (e :: es) d) := by
  refine ⟨computeAggregate hl now h3Index e es, by simp [recomputeResult, hlive], ?_⟩
  obtain ⟨rest, hkp⟩ := kindsPresent_head e es
  obtain ⟨l1, l2, hdec, h1, h2⟩ :=
    reduceDominantAux_decomp (kindWeight hl now (e :: es)) rest e.emotion
  refine ⟨reduceDominantAux (kindWeight hl now (e :: es)) e.emotion rest, l1, l2,
    ?_, ?_, ?_, h2⟩
  · show reduceDominant (kindWeight hl now (e :: es)) (kindsPresent (e :: es)) = _
    rw [hkp, reduceDominant]
  · rw [hkp]
    exact hdec
  · intro x hx
    rw [hkp, hdec] at hx
    rcases List.mem_append.mp hx with hx1 | hx2
    · exact h1 x hx1
    · rcases List.mem_cons.mp hx2 with hxd | hxl
      · rw [hxd]
      · exact (h2 x hxl).le

/-- JOY entry of cell c3, weight equal to its SADNESS sibling. -/
def e31 : EmotionEntry := mkEntry 1 1 "c3" .JOY 300 0 none 1

/-- SADNESS entry of cell c3, weight equal to its JOY sibling. -/
def e32 : EmotionEntry := mkEntry 2 1 "c3" .SADNESS 300 0 none 1

/-- Claim C3, counterexample: with kinds JOY then SADNESS at equal
weight, the reduce of `updateAggregateForCell` picks SADNESS — the
LAST-encountered kind — not the first-encountered JOY. -/
theorem dominant_tiebreak_counterexample :
    kindsPresent (liveForCell [e31, e32] "c3" 0) = [.JOY, .SADNESS] ∧
    kindWeight 30 0 (liveForCell [e31, e32] "c3" 0) .JOY =
      kindWeight 30 0 (liveForCell [e31, e32] "c3" 0) .SADNESS ∧
    (recomputeResult 30 [e31, e32] "c3" 0).map EmotionAggregate.dominantEmotion =
      some (some .SADNESS) := by
  have hlive : liveForCell [e31, e32] "c3" 0 = [e31, e32] := rfl
  have hkwJ : kindWeight 30 0 [e31, e32] .JOY = totalEntryWeight 30 0 e31 := by
    rw [kindWeight,
      show [e31, e32].filter (fun e => decide (e.emotion = EmotionType.JOY)) = [e31]
        from rfl]
    simp
  have hkwS : kindWeight 30 0 [e31, e32] .SADNESS = totalEntryWeight 30 0 e32 := by
    rw [kindWeight,
      show [e31, e32].filter (fun e => decide (e.emotion = EmotionType.SADNESS)) = [e32]
        from rfl]
    simp
  have hwe : totalEntryWeight 30 0 e31 = totalEntryWeight 30 0 e32 := rfl
  have heq : kindWeight 30 0 [e31, e32] .JOY = kindWeight 30 0 [e31, e32] .SADNESS := by
    rw [hkwJ, hkwS, hwe]
  refine ⟨rfl, by rw [hlive]; exact heq, ?_⟩
  simp only [recomputeResult, hlive, Option.map_some', Option.some.injEq]
  rw [computeAggregate]
  show reduceDominant (kindWeight 30 0 [e31, e32]) (kindsPresent [e31, e32]) =
    some EmotionType.SADNESS
  rw [show kindsPresent [e31, e32] = [EmotionType.JOY, EmotionType.SADNESS] from rfl,
    reduceDominant, reduceDominantAux]
  simp only [List.foldl_cons, List.foldl_nil, heq, lt_irrefl, if_false, Option.some.injEq]

/-- Witness for the amended C3 at the concrete two-entry cell c3. -/
theorem dominant_max_last_tiebreak_witness :
    ∃ agg, recomputeResult 30 [e31, e32] "c3" 0 = some agg ∧
      ∃ d l1 l2, agg.dominantEmotion = some d ∧
        kindsPresent (e31 :: [e32]) = l1 ++ d :: l2 ∧
        (∀ x ∈ kindsPresent (e31 :: [e32]),
          kindWeight 30 0 (e31 :: [e32]) x ≤ kindWeight 30 0 (e31 :: [e32]) d) ∧
        (∀ x ∈ l2, kindWeight 30 0 (e31 :: [e32]) x < kindWeight 30 0 (e31 :: [e32]) d) :=
  dominant_max_last_tiebreak 30 [e31, e32] "c3" 0 e31 [e32] rfl

/-- Claim C6: with a valid cell id, `emotions.add` throws
`TOO_MANY_REQUESTS` and persists nothing when the user already has three
or more entries for that exact cell in the current calendar day, and
otherwise persists one new entry for the requested cell and schedules
its recompute. -/
theorem add_daily_cell_limit (v : String → Bool) (entries : List EmotionEntry)
    (userId : Nat) (rep : Rat) (inp : AddInput) (dayStart dayEnd now : Int)
    (newId : Nat) (hvalid : v inp.h3Index = true) :
    (3 ≤ (entries.filter (sameCellToday userId inp.h3Index dayStart dayEnd)).length →
      addEmotion v entries userId rep inp dayStart dayEnd now newId =
        { result := .error .rateLimited, entries := entries, scheduled := [] }) ∧
    ((entries.filter (sameCellToday userId inp.h3Index dayStart dayEnd)).length < 3 →
      ∃ ne, addEmotion v entries userId rep inp dayStart dayEnd now newId =
          { result := .ok ne, entries := entries ++ [ne], scheduled := [inp.h3Index] } ∧
        ne.userId = userId ∧ ne.h3Index = inp.h3Index ∧ ne.createdAt = now) := by
  constructor
  · intro hcnt
    rw [addEmotion, hvalid]
    simp only [Bool.not_true, Bool.false_eq_true, if_false]
    rw [if_pos hcnt]
  · intro hcnt
    rw [addEmotion, hvalid]
    simp only [Bool.not_true, Bool.false_eq_true, if_false]
    rw [if_neg (by omega :
      ¬ 3 ≤ (entries.filter (sameCellToday userId inp.h3Index dayStart dayEnd)).length)]
    exact ⟨_, rfl, rfl, rfl, rfl⟩

/-- Three same-day entries of user 7 in cell cA. -/
def E3 : List EmotionEntry :=
  [mkEntry 1 7 "cA" .JOY 300 100 none 1,
   mkEntry 2 7 "cA" .JOY 300 200 none 1,
   mkEntry 3 7 "cA" .JOY 300 300 none 1]

/-- Fourth same-day submission of user 7, aimed at cell cA. -/
def inpA : AddInput :=
  { h3Index := "cA", emotion := .JOY, intensity := 50, note := none, tags := []
    dwellSeconds := 60, gpsAccuracy := 10, visibility := .PUBLIC, ttlHours := none }

/-- The same submission aimed at cell cB instead. -/
def inpB : AddInput := { inpA with h3Index := "cB" }

/-- Witness for C6: user 7's fourth same-day submission to cA is
rejected with nothing persisted, the one to cB is accepted. -/
theorem add_daily_cell_limit_witness :
    addEmotion (fun _ => true) E3 7 1 inpA 0 86400000 400 10 =
      { result := .error .rateLimited, entries := E3, scheduled := [] } ∧
    ∃ ne, addEmotion (fun _ => true) E3 7 1 inpB 0 86400000 400 11 =
        { result := .ok ne, entries := E3 ++ [ne], scheduled := ["cB"] } ∧
      ne.userId = 7 ∧ ne.h3Index = "cB" ∧ ne.createdAt = 400 := by
  constructor
  · exact (add_daily_cell_limit (fun _ => true) E3 7 1 inpA 0 86400000 400 10 rfl).1
      (by decide)
  · exact (add_daily_cell_limit (fun _ => true) E3 7 1 inpB 0 86400000 400 11 rfl).2
      (by decide)

/-- Claim C9: the recency weight is `exp(-lambda * ageDays)` with
`lambda = ln 2 / HALF_LIFE_DAYS`, and with the default half-life of 30
days an entry created 60 days before `now` weighs exactly a quarter of
an otherwise identical entry created at `now`. -/
theorem recency_exponential_halflife :
    (∀ (hl : ℝ) (now : Int) (e : EmotionEntry),
      recencyWeight hl now e = Real.exp (-(Real.log 2 / hl) * ageDays now e)) ∧
    (∀ (now : Int) (eOld eNew : EmotionEntry),
      eOld.createdAt = now - 5184000000 → eNew.createdAt = now →
      recencyWeight HALF_LIFE_DAYS now eOld =
        recencyWeight HALF_LIFE_DAYS now eNew / 4) := by
  refine ⟨fun hl now e => rfl, fun now eOld eNew hOld hNew => ?_⟩
  have hage : ageDays now eOld = 60 := by
    rw [ageDays, hOld]
    have h5 : now - (now - 5184000000) = (5184000000 : Int) := by ring
    rw [h5]
    norm_num
  have hage0 : ageDays now eNew = 0 := by
    rw [ageDays, hNew]
    simp
  rw [recencyWeight, recencyWeight, hage, hage0, HALF_LIFE_DAYS, mul_zero,
    Real.exp_zero]
  have h1 : -(Real.log 2 / 30) * 60 = -(Real.log 2 + Real.log 2) := by ring
  rw [h1, Real.exp_neg, Real.exp_add, Real.exp_log (by norm_num : (0:ℝ) < 2)]
  norm_num

/-- Entry created 60 days (5184000000 ms) before the epoch instant. -/
def e9old : EmotionEntry := mkEntry 1 1 "c9" .JOY 300 (-5184000000) none 1

/-- Otherwise identical entry created at the epoch instant. -/
def e9new : EmotionEntry := mkEntry 2 1 "c9" .JOY 300 0 none 1

/-- Witness for C9 at the concrete 60-day-old and fresh entries. -/
theorem recency_exponential_halflife_witness :
    recencyWeight HALF_LIFE_DAYS 0 e9old = recencyWeight HALF_LIFE_DAYS 0 e9new / 4 :=
  recency_exponential_halflife.2 0 e9old e9new (by decide) rfl

end Locus
